import Mathlib

/-!
Shallow embedding of the `open_csv` CSV loader and its inspection utilities,
translated from the C sources:

* `src/unnamed/part_000` — the header (`open_csv.h`) with the fixed-capacity
  `csvData_t` struct (`char *features[MAX_ALLOWED_FEATURE_NAMES]`,
  `float dataFrame[MAX_ALLOWED_FEATURE_VALUE][MAX_ALLOWED_FEATURE_NAMES]`)
  and the capacity constants.
* `src/unnamed/part_001` — `open_csv.c` variant: `trimToken` and `loadCsv`
  (header pass via `strtok(buffer, ",")`, data pass via `strtok(buffer,
  &df.delim)`, no assignment to `df.size`, no row-capacity check in the
  data loop).
* `src/main.c` (embedded `open_csv.c` variant at lines 564-886) — the same
  `trimToken`, a `loadCsv` that additionally assigns
  `df.size = (long)df.rows * (long)df.cols`, and the reporting functions
  `DF_get_head`, `DF_get_tail`, `DF_get_randomSamples`; plus (lines 128-563)
  an older variant whose `getFrameSize` contains the row-capacity abort.

Modelling conventions:
* A file is `Option (List (List Char))`: `none` models `fopen` returning
  `NULL`; `some lines` gives the lines without their trailing newline, and
  the model appends `'\n'` before tokenizing, as `fgets` leaves the
  newline in the buffer.  (`fgets` chunking of lines longer than 1023
  characters is not modelled; load-level theorems therefore carry the
  hypothesis that every line fits the 1024-byte buffer.)
* `strtok` splitting is parameterized by the set of delimiter characters
  `delims`.  The data pass of `part_001`/`main.c:727` passes `&df.delim`
  (the address of a single `char` struct member) to `strtok`, so the
  delimiter set the C library actually sees depends on the padding bytes
  that follow; theorems quantify over `delims` to cover every possibility.
* Machine floats are represented by `CVal`: an exact rational for finite
  conversions, kept as an unnormalized numerator/denominator pair of plain
  integers (the denominator is always a positive power of the parse base),
  plus infinity/NaN markers (`atof`/`strtod` rounding to binary floating
  point is not modelled; the claims only distinguish the value 0.0, which
  is exact, and the zero-initialized / no-conversion cell is exactly
  `CVal.fin 0 1`).
* The zero-initialized fixed grid is an association list of written cells
  with default `CVal.fin 0 1`; writing outside the declared array bounds,
  reading a `NULL` stream, tokenizing the uninitialized buffer after a
  failed first `fgets`, and `% 0` are surfaced as explicit undefined
  behaviour markers (`UBKind`) rather than silently given a value.
-/

namespace OpenCsv

/-- C locale `isalnum` restricted to the byte range: decimal digits and
Latin letters. -/
def isAlnumC (c : Char) : Bool :=
  ('0' ≤ c && c ≤ '9') || ('A' ≤ c && c ≤ 'Z') || ('a' ≤ c && c ≤ 'z')

/-- C locale `isspace`: space, tab, newline, vertical tab, form feed,
carriage return. -/
def isSpaceC (c : Char) : Bool :=
  c == ' ' || c == '\t' || c == '\n' || c.toNat == 11 || c.toNat == 12 || c == '\r'

/-- C locale `isdigit`. -/
def isDigitC (c : Char) : Bool := '0' ≤ c && c ≤ '9'

/-- C locale `tolower` for Latin letters. -/
def toLowerC (c : Char) : Char :=
  if 'A' ≤ c && c ≤ 'Z' then Char.ofNat (c.toNat + 32) else c

/-- C locale `isxdigit`. -/
def isHexC (c : Char) : Bool :=
  isDigitC c || ('a' ≤ c && c ≤ 'f') || ('A' ≤ c && c ≤ 'F')

/-- Numeric value of a decimal digit character. -/
def digitVal (c : Char) : Nat := c.toNat - 48

/-- Numeric value of a hexadecimal digit character. -/
def hexVal (c : Char) : Nat :=
  if isDigitC c then c.toNat - 48 else (toLowerC c).toNat - 87

/-- Accumulator for `strtok`-style splitting: delimiters separate maximal
nonempty runs of non-delimiter characters; consecutive delimiters yield no
empty tokens, exactly as `strtok` behaves. `cur` holds the current token
reversed. -/
def splitTokensAux (delims : List Char) : List Char → List Char → List (List Char)
  | [], cur => if cur.isEmpty then [] else [cur.reverse]
  | c :: rest, cur =>
    if delims.contains c then
      if cur.isEmpty then splitTokensAux delims rest []
      else cur.reverse :: splitTokensAux delims rest []
    else splitTokensAux delims rest (c :: cur)

/-- The token list `strtok(buffer, delims)` iteration produces. -/
def splitTokens (delims s : List Char) : List (List Char) :=
  splitTokensAux delims s []

/-- Tokens of one `fgets` line: the newline terminator is still in the
buffer when `strtok` runs, so it is appended before splitting. -/
def lineTokens (delims line : List Char) : List (List Char) :=
  splitTokens delims (line ++ ['\n'])

/-- The character sequence `trimToken` (src/unnamed/part_001 lines 87-109,
src/main.c lines 650-668) copies into the destination buffer: the loop
copies exactly the `isalnum` characters of the token, in order. -/
def trimToken : List Char → List Char
  | [] => []
  | c :: rest => if isAlnumC c then c :: trimToken rest else trimToken rest

/-- Whether the buffer `trimToken` returns is NUL-terminated.  The code
writes a terminator only once, as `trimmedToken[0] = '\0'` before the copy
loop; that byte survives only when no character is copied, so the result
is a well-terminated C string exactly when the copied sequence is empty
(otherwise the byte after the copied characters is uninitialized `malloc`
memory). -/
def trimTokenTerminated (token : List Char) : Bool := (trimToken token).isEmpty

/-- Value a `float` cell can hold in the model: an exact rational
`num / den` for a finite conversion (with `den` a positive power of the
parse base, never normalized away), or an infinity/NaN marker.  The float
0.0 is `fin 0 1`. -/
inductive CVal where
  | fin (num : Int) (den : Nat)
  | pinf
  | ninf
  | nan
deriving DecidableEq, Repr

/-- Optional sign at the start of a `strtod` subject sequence; returns
(negative?, rest). -/
def parseSign : List Char → Bool × List Char
  | '-' :: r => (true, r)
  | '+' :: r => (false, r)
  | s => (false, s)

/-- Value of a digit string in the given base. -/
def natOfDigits (base : Nat) (val : Char → Nat) (ds : List Char) : Nat :=
  ds.foldl (fun acc d => acc * base + val d) 0

/-- Mantissa of a `strtod` subject sequence in the given base: digits with
an optional radix point; at least one digit must be present.  Returns the
exact value as a numerator/denominator pair (`den = base ^ fractionLength`)
and the rest of the input. -/
def mantissaIn (isD : Char → Bool) (base : Nat) (val : Char → Nat) (s : List Char) :
    Option ((Nat × Nat) × List Char) :=
  let ip := s.takeWhile isD
  let r1 := s.dropWhile isD
  match r1 with
  | '.' :: r2 =>
    let fp := r2.takeWhile isD
    let r3 := r2.dropWhile isD
    if ip.length + fp.length = 0 then none
    else some ((natOfDigits base val ip * base ^ fp.length + natOfDigits base val fp,
      base ^ fp.length), r3)
  | _ => if ip.length = 0 then none else some ((natOfDigits base val ip, 1), r1)

/-- Exponent part after the mantissa: one of the marker characters,
optional sign, decimal digits; consumed (and nonzero) only when at least
one digit follows, as `strtod` backtracks otherwise. -/
def expoAfter (marks : List Char) (s : List Char) : Int :=
  match s with
  | c :: rest =>
    if marks.contains c then
      let sn := parseSign rest
      let ds := sn.2.takeWhile isDigitC
      if ds.length = 0 then 0
      else if sn.1 then -(natOfDigits 10 digitVal ds : Int)
      else (natOfDigits 10 digitVal ds : Int)
    else 0
  | [] => 0

/-- Scale a mantissa pair by `base ^ exponent`: a non-negative exponent
multiplies the numerator, a negative one multiplies the denominator. -/
def scalePow (base : Nat) (e : Int) (m : Nat × Nat) : Nat × Nat :=
  if 0 ≤ e then (m.1 * base ^ e.toNat, m.2) else (m.1, m.2 * base ^ (-e).toNat)

/-- Case-insensitive prefix match against a lowercase pattern. -/
def ciPrefixMatch : List Char → List Char → Bool
  | [], _ => true
  | _ :: _, [] => false
  | p :: ps, c :: cs => (toLowerC c == p) && ciPrefixMatch ps cs

/-- Apply the parsed sign to the numerator. -/
def signApply (neg : Bool) (n : Nat) : Int := if neg then -(n : Int) else (n : Int)

/-- Decimal conversion attempt of a `strtod` subject sequence (after sign). -/
def decConvert (neg : Bool) (s : List Char) : Option CVal :=
  match mantissaIn isDigitC 10 digitVal s with
  | none => none
  | some (m, r) =>
    let m2 := scalePow 10 (expoAfter ['e', 'E'] r) m
    some (.fin (signApply neg m2.1) m2.2)

/-- Hexadecimal conversion attempt (after `0x`). -/
def hexConvert (neg : Bool) (s : List Char) : Option CVal :=
  match mantissaIn isHexC 16 hexVal s with
  | none => none
  | some (m, r) =>
    let m2 := scalePow 2 (expoAfter ['p', 'P'] r) m
    some (.fin (signApply neg m2.1) m2.2)

/-- Model of the C library `strtod`/`atof` conversion (C locale): skip
whitespace, optional sign, then infinity/NaN forms, a hexadecimal float
after `0x` (falling back to the plain `0` when no hex digit follows), or a
decimal float.  `none` means the subject sequence is empty (no conversion
is performed), in which case `atof` yields 0.0.  Overflow saturation to
`HUGE_VAL` and rounding to binary floating point are not modelled; the
claims only rely on the no-conversion case and on which inputs convert. -/
def strtodParse (s : List Char) : Option CVal :=
  let sn := parseSign (s.dropWhile isSpaceC)
  let neg := sn.1
  let s2 := sn.2
  if ciPrefixMatch ['i', 'n', 'f'] s2 then some (if neg then .ninf else .pinf)
  else if ciPrefixMatch ['n', 'a', 'n'] s2 then some .nan
  else
    match s2 with
    | '0' :: x :: rest =>
      if x == 'x' || x == 'X' then
        match hexConvert neg rest with
        | some v => some v
        | none => decConvert neg s2
      else decConvert neg s2
    | _ => decConvert neg s2

/-- `atof(token)` as the data pass uses it: the converted value, or 0.0
when no conversion can be performed. -/
def atofModel (s : List Char) : CVal :=
  match strtodParse s with
  | none => .fin 0 1
  | some v => v

/-- The fixed grid `float dataFrame[MAX_ALLOWED_FEATURE_VALUE][MAX_ALLOWED_FEATURE_NAMES]`,
zero-initialized by the designated struct initializer: an association list
of the cells actually written (newest first), every unwritten cell reading
as 0.0. -/
abbrev Grid := List ((Nat × Nat) × CVal)

/-- Read a grid cell: the latest write at (r, c), or the zero initial
value. -/
def gridGet (g : Grid) (r c : Nat) : CVal :=
  match g.find? (fun e => e.1 == (r, c)) with
  | some e => e.2
  | none => .fin 0 1

/-- `csvData_t` from src/unnamed/part_000 lines 36-45 (the
`HIGH_DATAFRAME_DETAIL == 0` shape used by the loaders):
`delim`, `rows`, `cols`, `size`, `features`, `dataFrame`.  The `delim`
member is kept as the delimiter set the data pass uses. -/
structure csvData_t where
  delim : List Char
  rows : Int
  cols : Int
  size : Int
  features : List (List Char)
  dataFrame : Grid
deriving DecidableEq, Repr

/-- `df.dataFrame[r][c]` for in-bounds indices. -/
def cellAt (df : csvData_t) (r c : Nat) : CVal := gridGet df.dataFrame r c

/-- Undefined-behaviour events the C code can reach. -/
inductive UBKind where
  | nullStreamRead
  | uninitBufferRead
  | oobWrite (row col : Nat)
  | oobRead (row col : Int)
  | modZero
deriving DecidableEq, Repr

/-- Outcome of a load: a returned table, the deliberate `abort()` of the
header capacity check, or undefined behaviour. -/
inductive LoadResult where
  | ok (df : csvData_t)
  | capacityAbort
  | ub (k : UBKind)
deriving DecidableEq, Repr

/-- src/unnamed/part_000 line 31. -/
def MAX_ALLOWED_FEATURE_NAMES : Nat := 20

/-- src/unnamed/part_000 line 32. -/
def MAX_ALLOWED_FEATURE_VALUE : Nat := 25000

/-- Inner token loop of the data pass: `df.dataFrame[row][col] = atof(tokens)`
for each token, incrementing `col`.  The C code performs no bounds check,
so a write outside the declared array bounds is an out-of-bounds write. -/
def writeRow : List (List Char) → Nat → Nat → Grid → Except UBKind Grid
  | [], _, _, g => .ok g
  | tok :: toks, row, col, g =>
    if row < MAX_ALLOWED_FEATURE_VALUE ∧ col < MAX_ALLOWED_FEATURE_NAMES then
      writeRow toks row (col + 1) (((row, col), atofModel tok) :: g)
    else .error (.oobWrite row col)

/-- Data pass of `loadCsv` (src/unnamed/part_001 lines 225-242,
src/main.c lines 778-793): for each remaining line, tokenize and write the
converted tokens into row `row`, then increment the row counter.  There is
no row-capacity check. -/
def dataPass (delims : List Char) : List (List Char) → Nat → Grid → Except UBKind (Nat × Grid)
  | [], row, g => .ok (row, g)
  | line :: rest, row, g =>
    match writeRow (lineTokens delims line) row 0 g with
    | .error e => .error e
    | .ok g2 => dataPass delims rest (row + 1) g2

/-- `loadCsv` from src/unnamed/part_001 lines 171-251.  `fopen` failure is
not handled (`if(csvPtr != NULL)` has no else branch), so a `none` file
flows into `fgets(buffer, 1024, NULL)`; an empty file leaves the buffer
uninitialized for `strtok`.  The header pass tokenizes on the literal
`","` and aborts when `tokenCount` reaches `MAX_ALLOWED_FEATURE_NAMES - 1`
with a token still pending, i.e. when the header has at least
`MAX_ALLOWED_FEATURE_NAMES` tokens.  Each stored feature is the trimmed
token; `cols` counts the stored tokens, `rows` counts the data lines.
`size` keeps its initializer value `0l`: this variant never assigns it. -/
def loadCsv_part001 (delims : List Char) (file : Option (List (List Char))) : LoadResult :=
  match file with
  | none => .ub .nullStreamRead
  | some [] => .ub .uninitBufferRead
  | some (hdr :: dls) =>
    let toks := lineTokens [','] hdr
    if MAX_ALLOWED_FEATURE_NAMES ≤ toks.length then .capacityAbort
    else
      match dataPass delims dls 0 [] with
      | .error e => .ub e
      | .ok (row, g) =>
        .ok { delim := delims, rows := (row : Int), cols := (toks.length : Int),
              size := 0, features := toks.map trimToken, dataFrame := g }

/-- `loadCsv` from src/main.c lines 727-804: identical to the part_001
variant except that the header pass also tokenizes on `CSV_DELIM`
(parameterized here by the same `delims`) and that after the data pass it
assigns `df.size = (long)df.rows * (long)df.cols`. -/
def loadCsv_main (delims : List Char) (file : Option (List (List Char))) : LoadResult :=
  match file with
  | none => .ub .nullStreamRead
  | some [] => .ub .uninitBufferRead
  | some (hdr :: dls) =>
    let toks := lineTokens delims hdr
    if MAX_ALLOWED_FEATURE_NAMES ≤ toks.length then .capacityAbort
    else
      match dataPass delims dls 0 [] with
      | .error e => .ub e
      | .ok (row, g) =>
        .ok { delim := delims, rows := (row : Int), cols := (toks.length : Int),
              size := (row : Int) * (toks.length : Int),
              features := toks.map trimToken, dataFrame := g }

/-- Row-counting loop of `getFrameSize` (src/main.c lines 236-265): each
fetched line is checked against `MAX_ALLOWED_FEATURE_VALUE - 1 == dfRows`
before `dfRows++`; reaching the check with `dfRows = 24999` aborts.
`none` models the `abort()`. -/
def countRowsAux : List (List Char) → Nat → Option Nat
  | [], n => some n
  | _ :: rest, n =>
    if n = MAX_ALLOWED_FEATURE_VALUE - 1 then none else countRowsAux rest (n + 1)

/-- `getFrameSize` from src/main.c lines 215-273: skips the header line,
counts the data rows with the capacity abort, and counts the columns of
the first data line.  Returns `none` on abort. -/
def getFrameSize (delims : List Char) (lines : List (List Char)) : Option (Nat × Nat) :=
  match lines with
  | [] => some (0, 0)
  | _hdr :: dataLines =>
    match countRowsAux dataLines 0 with
    | none => none
    | some r =>
      match dataLines with
      | [] => some (r, 0)
      | d :: _ => some (r, (lineTokens delims d).length)

/-- Effectful map over a list in the `Except` monad, stopping at the first
error — the shape of every bounded print loop below. -/
def exceptMapList (f : α → Except ε β) : List α → Except ε (List β)
  | [] => .ok []
  | a :: l =>
    match f a with
    | .error e => .error e
    | .ok b =>
      match exceptMapList f l with
      | .error e => .error e
      | .ok bs => .ok (b :: bs)

/-- Decidable equality of `Except` results, for evaluating the printers on
concrete tables. -/
instance exceptDecEq {e a : Type _} [DecidableEq e] [DecidableEq a] :
    DecidableEq (Except e a) := fun x y =>
  match x, y with
  | .error u, .error v =>
    if h : u = v then isTrue (by rw [h]) else isFalse (fun hxy => h (by injection hxy))
  | .ok u, .ok v =>
    if h : u = v then isTrue (by rw [h]) else isFalse (fun hxy => h (by injection hxy))
  | .error _, .ok _ => isFalse (fun hxy => Except.noConfusion hxy)
  | .ok _, .error _ => isFalse (fun hxy => Except.noConfusion hxy)

/-- `df.dataFrame[r][c]` as the reporting functions access it: indices may
be any `int`, and an access outside the declared bounds of the fixed array
is an out-of-bounds read. -/
def readCell (df : csvData_t) (r c : Int) : Except UBKind CVal :=
  if 0 ≤ r ∧ r < (MAX_ALLOWED_FEATURE_VALUE : Int) ∧ 0 ≤ c ∧ c < (MAX_ALLOWED_FEATURE_NAMES : Int)
  then .ok (gridGet df.dataFrame r.toNat c.toNat)
  else .error (.oobRead r c)

/-- Inner column loop shared by head/tail/random-sample printing:
`for (cindex = 0; cindex < df.cols; cindex++) … df.dataFrame[rindex][cindex]`. -/
def readRowCells (df : csvData_t) (r : Int) : Except UBKind (List CVal) :=
  exceptMapList (fun c => readCell df r (Int.ofNat c)) (List.range df.cols.toNat)

/-- The in-bounds row vector at row `r` (cells 0 … cols-1). -/
def gridRow (df : csvData_t) (r : Nat) : List CVal :=
  (List.range df.cols.toNat).map (fun c => cellAt df r c)

/-- The loaded rows, in load order. -/
def loadedRows (df : csvData_t) : List (List CVal) :=
  (List.range df.rows.toNat).map (fun r => gridRow df r)

/-- `DF_get_head` (src/main.c lines 824-838): prints rows
`0 … CSV_NUM_OF_ROWS_AT_HEAD - 1` unconditionally; the row-count constant
(defined in a header not present under src/) is the parameter `n`.  The
loop never consults `df.rows`. -/
def DF_get_head (n : Nat) (df : csvData_t) : Except UBKind (List (List CVal)) :=
  exceptMapList (fun r => readRowCells df (Int.ofNat r)) (List.range n)

/-- `DF_get_tail` (src/main.c lines 840-854): prints rows from
`df.rows - 1` downward while `rindex >= df.rows - n`, i.e. the `n` indices
`df.rows - 1, df.rows - 2, …, df.rows - n`, in that (descending) order. -/
def DF_get_tail (n : Nat) (df : csvData_t) : Except UBKind (List (List CVal)) :=
  exceptMapList (fun i => readRowCells df (df.rows - 1 - Int.ofNat i)) (List.range n)

/-- The row indices `DF_get_randomSamples` draws:
`sample_indexes[index] = rand() % df.rows`, with `rand()` modelled as an
arbitrary sequence `seq` of non-negative values and `%` as C truncated
remainder. -/
def sampleIndices (n : Nat) (seq : Nat → Nat) (df : csvData_t) : List Int :=
  (List.range n).map (fun i => Int.tmod (Int.ofNat (seq i)) df.rows)

/-- `DF_get_randomSamples` (src/main.c lines 856-886): draws
`CSV_NUM_OF_ROWS_AT_RANDOM` (the parameter `n`) indices with
`rand() % df.rows` — a division by zero when `df.rows = 0` — then prints
the sampled rows. -/
def DF_get_randomSamples (n : Nat) (seq : Nat → Nat) (df : csvData_t) :
    Except UBKind (List (List CVal)) :=
  if df.rows = 0 then .error .modZero
  else exceptMapList (fun idx => readRowCells df idx) (sampleIndices n seq df)

/-! ### Concrete fixtures for witnesses and counterexamples -/

/-- File with header `a,b` and data line `1,2`. -/
def fileAB : List (List Char) := ["a,b".toList, "1,2".toList]

/-- Table the part_001 loader returns on `fileAB` (`size` stays 0). -/
def dfAB0 : csvData_t :=
  { delim := [','], rows := 1, cols := 2, size := 0, features := [['a'], ['b']],
    dataFrame := [((0, 1), .fin 2 1), ((0, 0), .fin 1 1)] }

/-- Table the main.c loader returns on `fileAB` (`size = rows * cols`). -/
def dfAB2 : csvData_t :=
  { delim := [','], rows := 1, cols := 2, size := 2, features := [['a'], ['b']],
    dataFrame := [((0, 1), .fin 2 1), ((0, 0), .fin 1 1)] }

/-- File with header `a` and data line `1`. -/
def fileA1 : List (List Char) := ["a".toList, "1".toList]

/-- Load result of `fileA1`. -/
def dfA1 : csvData_t :=
  { delim := [','], rows := 1, cols := 1, size := 0, features := [['a']],
    dataFrame := [((0, 0), .fin 1 1)] }

/-- File with header `a` and data lines `1`, `2`. -/
def fileA12 : List (List Char) := ["a".toList, "1".toList, "2".toList]

/-- Load result of `fileA12`. -/
def dfA12 : csvData_t :=
  { delim := [','], rows := 2, cols := 1, size := 0, features := [['a']],
    dataFrame := [((1, 0), .fin 2 1), ((0, 0), .fin 1 1)] }

/-- File with only the header `a` (zero data rows). -/
def fileA : List (List Char) := ["a".toList]

/-- Load result of `fileA`: an empty table with `rows = 0`. -/
def dfA : csvData_t :=
  { delim := [','], rows := 0, cols := 1, size := 0, features := [['a']], dataFrame := [] }

/-- File with header `a,b` and the malformed numeric cell `N/A`. -/
def fileNA : List (List Char) := ["a,b".toList, "1,N/A".toList]

/-- Load result of `fileNA`: the malformed cell holds 0.0. -/
def dfNA : csvData_t :=
  { delim := [','], rows := 1, cols := 2, size := 0, features := [['a'], ['b']],
    dataFrame := [((0, 1), .fin 0 1), ((0, 0), .fin 1 1)] }

/-- File with header `a,b` and a data line with a single token. -/
def fileShort : List (List Char) := ["a,b".toList, "1".toList]

/-- Load result of `fileShort`: cell (0, 1) is never written. -/
def dfShort : csvData_t :=
  { delim := [','], rows := 1, cols := 2, size := 0, features := [['a'], ['b']],
    dataFrame := [((0, 0), .fin 1 1)] }

/-- Header line with exactly 20 comma-separated tokens. -/
def hdr20 : List Char := "a,b,c,d,e,f,g,h,i,j,k,l,m,n,o,p,q,r,s,t".toList

/-- Header line with 21 comma-separated tokens. -/
def hdr21 : List Char := "a,b,c,d,e,f,g,h,i,j,k,l,m,n,o,p,q,r,s,t,u".toList

/-! ### Helper lemmas about the grid and the data pass -/

theorem gridGet_cons (r0 c0 : Nat) (v : CVal) (g : Grid) (r c : Nat) :
    gridGet (((r0, c0), v) :: g) r c =
      if r = r0 ∧ c = c0 then v else gridGet g r c := by
  by_cases h : r = r0 ∧ c = c0
  · obtain ⟨rfl, rfl⟩ := h
    simp [gridGet, List.find?]
  · have hne : ((((r0, c0), v).1 == ((r, c) : Nat × Nat)) = false) := by
      simp only [beq_eq_false_iff_ne, ne_eq, Prod.mk.injEq]
      rintro ⟨h1, h2⟩
      exact h ⟨h1.symm, h2.symm⟩
    simp [gridGet, List.find?, hne, h]

theorem writeRow_get (toks : List (List Char)) (row col : Nat) (g g2 : Grid)
    (h : writeRow toks row col g = .ok g2) (r c : Nat) :
    gridGet g2 r c =
      if r = row ∧ col ≤ c ∧ c < col + toks.length then
        atofModel (toks.getD (c - col) [])
      else gridGet g r c := by
  induction toks generalizing col g with
  | nil =>
    simp only [writeRow, Except.ok.injEq] at h
    subst h
    have hno : ¬(r = row ∧ col ≤ c ∧ c < col + List.length ([] : List (List Char))) := by
      simp only [List.length_nil]
      omega
    rw [if_neg hno]
  | cons t ts ih =>
    simp only [writeRow] at h
    split at h
    · have hrec := ih (col + 1) (((row, col), atofModel t) :: g) h
      rw [hrec, gridGet_cons]
      simp only [List.length_cons]
      split_ifs with h1 h2 h3 h4 h5
      · obtain ⟨rfl, hc1, -⟩ := h1
        have e1 : c - col = (c - (col + 1)) + 1 := by omega
        rw [e1, List.getD_cons_succ]
      · omega
      · obtain ⟨rfl, rfl⟩ := h3
        rw [Nat.sub_self, List.getD_cons_zero]
      · omega
      · omega
      · rfl
    · cases h

theorem writeRow_oob (tok : List Char) (toks : List (List Char)) (row col : Nat) (g : Grid)
    (h : ¬(row < MAX_ALLOWED_FEATURE_VALUE ∧ col < MAX_ALLOWED_FEATURE_NAMES)) :
    writeRow (tok :: toks) row col g = .error (.oobWrite row col) := by
  simp only [writeRow, if_neg h]

theorem writeRow_ok_exists (toks : List (List Char)) (row col : Nat) (g : Grid)
    (hrow : row < MAX_ALLOWED_FEATURE_VALUE)
    (hcol : col + toks.length ≤ MAX_ALLOWED_FEATURE_NAMES) :
    ∃ g2, writeRow toks row col g = .ok g2 := by
  induction toks generalizing col g with
  | nil => exact ⟨g, rfl⟩
  | cons t ts ih =>
    simp only [List.length_cons] at hcol
    have hc : row < MAX_ALLOWED_FEATURE_VALUE ∧ col < MAX_ALLOWED_FEATURE_NAMES :=
      ⟨hrow, by omega⟩
    simp only [writeRow, if_pos hc]
    exact ih (col + 1) (((row, col), atofModel t) :: g) (by omega)

theorem dataPass_ok_rows (delims : List Char) (dls : List (List Char)) (r0 : Nat) (g0 : Grid)
    (rf : Nat) (gf : Grid) (h : dataPass delims dls r0 g0 = .ok (rf, gf)) :
    rf = r0 + dls.length := by
  induction dls generalizing r0 g0 with
  | nil =>
    simp only [dataPass, Except.ok.injEq, Prod.mk.injEq] at h
    obtain ⟨rfl, -⟩ := h
    simp
  | cons l rest ih =>
    cases hw : writeRow (lineTokens delims l) r0 0 g0 with
    | error e =>
      simp only [dataPass, hw] at h
      exact Except.noConfusion h
    | ok g2 =>
      simp only [dataPass, hw] at h
      have := ih (r0 + 1) g2 h
      simp only [List.length_cons]
      omega

theorem dataPass_ok_get (delims : List Char) (dls : List (List Char)) (r0 : Nat) (g0 : Grid)
    (rf : Nat) (gf : Grid) (h : dataPass delims dls r0 g0 = .ok (rf, gf)) (r c : Nat) :
    gridGet gf r c =
      if r0 ≤ r ∧ r < r0 + dls.length ∧
          c < (lineTokens delims (dls.getD (r - r0) [])).length then
        atofModel ((lineTokens delims (dls.getD (r - r0) [])).getD c [])
      else gridGet g0 r c := by
  induction dls generalizing r0 g0 with
  | nil =>
    simp only [dataPass, Except.ok.injEq, Prod.mk.injEq] at h
    obtain ⟨-, rfl⟩ := h
    have hno : ¬(r0 ≤ r ∧ r < r0 + List.length ([] : List (List Char)) ∧
        c < (lineTokens delims (List.getD [] (r - r0) [])).length) := by
      rintro ⟨h1, h2, -⟩
      simp only [List.length_nil] at h2
      omega
    rw [if_neg hno]
  | cons l rest ih =>
    cases hw : writeRow (lineTokens delims l) r0 0 g0 with
    | error e =>
      simp only [dataPass, hw] at h
      exact Except.noConfusion h
    | ok g2 =>
      simp only [dataPass, hw] at h
      have hrec := ih (r0 + 1) g2 h
      have hwg := writeRow_get (lineTokens delims l) r0 0 g0 g2 hw r c
      rcases Nat.lt_trichotomy r r0 with hlt | rfl | hgt
      · -- r below the written region: everything falls through to g0
        rw [hrec, hwg]
        have hn1 : ¬(r0 + 1 ≤ r ∧ r < r0 + 1 + rest.length ∧
            c < (lineTokens delims (rest.getD (r - (r0 + 1)) [])).length) := by
          rintro ⟨h1, -⟩; omega
        have hn2 : ¬(r = r0 ∧ 0 ≤ c ∧ c < 0 + (lineTokens delims l).length) := by
          rintro ⟨rfl, -⟩; omega
        have hn3 : ¬(r0 ≤ r ∧ r < r0 + (l :: rest).length ∧
            c < (lineTokens delims ((l :: rest).getD (r - r0) [])).length) := by
          rintro ⟨h1, -⟩; omega
        rw [if_neg hn1, if_neg hn2, if_neg hn3]
      · -- r is exactly the row this line wrote
        have hsub : r - r = 0 := Nat.sub_self r
        rw [hrec, hwg]
        have hn1 : ¬(r + 1 ≤ r ∧ r < r + 1 + rest.length ∧
            c < (lineTokens delims (rest.getD (r - (r + 1)) [])).length) := by
          rintro ⟨h1, -⟩; omega
        rw [if_neg hn1]
        simp only [hsub, List.getD_cons_zero, List.length_cons, Nat.zero_add, Nat.sub_zero]
        split_ifs with h1 h2 h3
        · rfl
        · exact (h2 ⟨Nat.le_refl r, by omega, h1.2.2⟩).elim
        · exact (h1 ⟨trivial, Nat.zero_le c, h3.2.2⟩).elim
        · rfl
      · -- r strictly above this line's row: the write is invisible
        obtain ⟨k, rfl⟩ : ∃ k, r = r0 + 1 + k := ⟨r - (r0 + 1), by omega⟩
        have e1 : r0 + 1 + k - (r0 + 1) = k := by omega
        have e2 : r0 + 1 + k - r0 = k + 1 := by omega
        rw [hrec, hwg, e1, e2, List.getD_cons_succ]
        have hn2 : ¬(r0 + 1 + k = r0 ∧ 0 ≤ c ∧ c < 0 + (lineTokens delims l).length) := by
          rintro ⟨h1, -⟩; omega
        rw [if_neg hn2]
        simp only [List.length_cons]
        split_ifs with h1 h2 h3
        · rfl
        · exact (h2 ⟨by omega, by omega, h1.2.2⟩).elim
        · exact (h1 ⟨by omega, by omega, h3.2.2⟩).elim
        · rfl

theorem dataPass_oob (delims : List Char) (dls : List (List Char)) (r0 : Nat) (g0 : Grid)
    (hall : ∀ l ∈ dls, (lineTokens delims l).length ≠ 0 ∧
      (lineTokens delims l).length ≤ MAX_ALLOWED_FEATURE_NAMES)
    (hr0 : r0 ≤ MAX_ALLOWED_FEATURE_VALUE)
    (hover : MAX_ALLOWED_FEATURE_VALUE < r0 + dls.length) :
    dataPass delims dls r0 g0 = .error (.oobWrite MAX_ALLOWED_FEATURE_VALUE 0) := by
  induction dls generalizing r0 g0 with
  | nil =>
    simp only [List.length_nil, Nat.add_zero] at hover
    omega
  | cons l rest ih =>
    obtain ⟨hne, hle⟩ := hall l (List.mem_cons_self l rest)
    by_cases hr : r0 = MAX_ALLOWED_FEATURE_VALUE
    · subst hr
      cases htl : lineTokens delims l with
      | nil => exact (hne (by rw [htl]; rfl)).elim
      | cons tok toks =>
        have hoob := writeRow_oob tok toks MAX_ALLOWED_FEATURE_VALUE 0 g0 (by omega)
        simp only [dataPass, htl, hoob]
    · have hlt : r0 < MAX_ALLOWED_FEATURE_VALUE := by omega
      obtain ⟨g2, hw⟩ := writeRow_ok_exists (lineTokens delims l) r0 0 g0 hlt (by omega)
      simp only [dataPass, hw]
      exact ih (r0 + 1) g2 (fun x hx => hall x (List.mem_cons_of_mem l hx)) (by omega)
        (by simp only [List.length_cons] at hover; omega)

theorem gridGet_nil (r c : Nat) : gridGet [] r c = .fin 0 1 := rfl

theorem trimToken_eq_filter (s : List Char) : trimToken s = s.filter isAlnumC := by
  induction s with
  | nil => rfl
  | cons c rest ih =>
    cases hc : isAlnumC c <;> simp [trimToken, List.filter_cons, hc, ih]

theorem loadCsv_part001_ok_inv (delims : List Char) (hdr : List Char)
    (dls : List (List Char)) (df : csvData_t)
    (h : loadCsv_part001 delims (some (hdr :: dls)) = .ok df) :
    (lineTokens [','] hdr).length < MAX_ALLOWED_FEATURE_NAMES ∧
    df.rows = (dls.length : Int) ∧
    df.cols = ((lineTokens [','] hdr).length : Int) ∧
    df.size = 0 ∧
    df.features = (lineTokens [','] hdr).map trimToken ∧
    ∀ r c : Nat, cellAt df r c =
      if r < dls.length ∧ c < (lineTokens delims (dls.getD r [])).length then
        atofModel ((lineTokens delims (dls.getD r [])).getD c [])
      else CVal.fin 0 1 := by
  simp only [loadCsv_part001] at h
  split at h
  · exact LoadResult.noConfusion h
  · rename_i hlen
    cases hdp : dataPass delims dls 0 [] with
    | error e =>
      rw [hdp] at h
      exact LoadResult.noConfusion h
    | ok p =>
      obtain ⟨row, g⟩ := p
      rw [hdp] at h
      simp only [LoadResult.ok.injEq] at h
      subst h
      have hrows := dataPass_ok_rows delims dls 0 [] row g hdp
      refine ⟨by omega, by simp only [hrows]; norm_num, rfl, rfl, rfl, ?_⟩
      intro r c
      have hg := dataPass_ok_get delims dls 0 [] row g hdp r c
      simpa only [cellAt, Nat.zero_add, Nat.sub_zero, Nat.zero_le, true_and,
        gridGet_nil] using hg

theorem loadCsv_main_ok_size (delims : List Char) (file : Option (List (List Char)))
    (df : csvData_t) (h : loadCsv_main delims file = .ok df) :
    df.size = df.rows * df.cols := by
  match file with
  | none => exact LoadResult.noConfusion h
  | some [] => exact LoadResult.noConfusion h
  | some (hdr :: dls) =>
    simp only [loadCsv_main] at h
    split at h
    · exact LoadResult.noConfusion h
    · cases hdp : dataPass delims dls 0 [] with
      | error e =>
        rw [hdp] at h
        exact LoadResult.noConfusion h
      | ok p =>
        obtain ⟨row, g⟩ := p
        rw [hdp] at h
        simp only [LoadResult.ok.injEq] at h
        subst h
        rfl

theorem loadCsv_part001_no_abort_iff (delims : List Char) (hdr : List Char)
    (dls : List (List Char)) :
    loadCsv_part001 delims (some (hdr :: dls)) = .capacityAbort ↔
      MAX_ALLOWED_FEATURE_NAMES ≤ (lineTokens [','] hdr).length := by
  constructor
  · intro h
    by_contra hlen
    simp only [loadCsv_part001] at h
    rw [if_neg hlen] at h
    split at h <;> exact LoadResult.noConfusion h
  · intro hlen
    simp only [loadCsv_part001, if_pos hlen]

theorem exceptMapList_ok_of {α β ε : Type _} (f : α → Except ε β) (g : α → β) (l : List α)
    (h : ∀ a ∈ l, f a = .ok (g a)) : exceptMapList f l = .ok (l.map g) := by
  induction l with
  | nil => rfl
  | cons a l ih =>
    have ha := h a (List.mem_cons_self a l)
    have hrest := ih (fun x hx => h x (List.mem_cons_of_mem a hx))
    simp only [exceptMapList, ha, hrest, List.map_cons]

theorem exceptMapList_error_of {α β ε : Type _} (f : α → Except ε β) (l : List α)
    (x : α) (hx : x ∈ l) (hfx : ∀ b, f x ≠ .ok b) :
    ∃ e, exceptMapList f l = .error e := by
  induction l with
  | nil => cases hx
  | cons a l ih =>
    cases hfa : f a with
    | error e => exact ⟨e, by simp [exceptMapList, hfa]⟩
    | ok b =>
      rcases List.mem_cons.mp hx with rfl | hx2
      · exact (hfx b hfa).elim
      · obtain ⟨e, he⟩ := ih hx2
        exact ⟨e, by simp [exceptMapList, hfa, he]⟩

theorem readCell_ok (df : csvData_t) (r c : Int) (h0 : 0 ≤ r)
    (h1 : r < (MAX_ALLOWED_FEATURE_VALUE : Int)) (h2 : 0 ≤ c)
    (h3 : c < (MAX_ALLOWED_FEATURE_NAMES : Int)) :
    readCell df r c = .ok (gridGet df.dataFrame r.toNat c.toNat) := by
  simp only [readCell]
  rw [if_pos (show 0 ≤ r ∧ r < (MAX_ALLOWED_FEATURE_VALUE : Int) ∧ 0 ≤ c ∧
    c < (MAX_ALLOWED_FEATURE_NAMES : Int) from ⟨h0, h1, h2, h3⟩)]

theorem readRowCells_ok (df : csvData_t) (r : Int) (h0 : 0 ≤ r)
    (h1 : r < (MAX_ALLOWED_FEATURE_VALUE : Int))
    (hc : df.cols.toNat ≤ MAX_ALLOWED_FEATURE_NAMES) :
    readRowCells df r = .ok (gridRow df r.toNat) := by
  unfold readRowCells gridRow
  apply exceptMapList_ok_of
  intro c hcm
  have hclt : c < df.cols.toNat := List.mem_range.mp hcm
  have hcc := readCell_ok df r (Int.ofNat c) h0 h1
    (by simp only [Int.ofNat_eq_natCast]; omega)
    (by simp only [Int.ofNat_eq_natCast]; omega)
  simpa only [cellAt, Int.toNat_ofNat] using hcc

theorem readRowCells_neg (df : csvData_t) (r : Int) (hneg : r < 0)
    (hcols : 0 < df.cols.toNat) :
    ∃ e, readRowCells df r = .error e := by
  unfold readRowCells
  refine exceptMapList_error_of _ _ 0 (List.mem_range.mpr hcols) ?_
  intro b hb
  simp only [readCell] at hb
  split at hb
  · rename_i hcond
    have := hcond.1
    omega
  · exact Except.noConfusion hb

theorem range_map_rev {α : Type _} (R n : Nat) (h : n ≤ R) (f : Nat → α) :
    (List.range n).map (fun i => f (R - 1 - i)) =
      (((List.range R).map f).drop (R - n)).reverse := by
  apply List.ext_getElem
  · simp only [List.length_map, List.length_range, List.length_reverse, List.length_drop]
    omega
  · intro i h1 h2
    simp only [List.length_map, List.length_range] at h1
    simp only [List.length_reverse, List.length_drop, List.length_map,
      List.length_range] at h2
    simp only [List.getElem_map, List.getElem_range, List.getElem_reverse,
      List.length_drop, List.length_map, List.length_range, List.getElem_drop]
    congr 1
    omega

theorem countRowsAux_none (ls : List (List Char)) (k : Nat)
    (hk : k ≤ MAX_ALLOWED_FEATURE_VALUE - 1)
    (hov : MAX_ALLOWED_FEATURE_VALUE - 1 < k + ls.length) :
    countRowsAux ls k = none := by
  induction ls generalizing k with
  | nil =>
    simp only [List.length_nil, Nat.add_zero] at hov
    omega
  | cons l rest ih =>
    by_cases hk2 : k = MAX_ALLOWED_FEATURE_VALUE - 1
    · simp only [countRowsAux, if_pos hk2]
    · simp only [countRowsAux, if_neg hk2]
      exact ih (k + 1) (by omega) (by simp only [List.length_cons] at hov; omega)

/-! ### Claim theorems -/

/-- C4: when the configured path cannot be opened (`fopen` returns `NULL`),
neither loadCsv variant produces an explicit `SourceUnavailable` failure
signal: the `if (csvPtr != NULL)` check has no failure branch, so the code
proceeds to call `fgets` on the NULL stream — undefined behaviour, with no
error value (and no table) ever returned to the caller. -/
theorem C4_null_stream_ub (delims : List Char) :
    loadCsv_part001 delims none = .ub .nullStreamRead ∧
    loadCsv_main delims none = .ub .nullStreamRead :=
  ⟨rfl, rfl⟩

/-- C2 counterexample: a header with exactly 20 tokens — at most
`MAX_ALLOWED_FEATURE_NAMES`, so the claim says the load must not abort on
the header capacity check — is aborted by it. -/
theorem C2_counterexample :
    (lineTokens [','] hdr20).length = 20 ∧
    loadCsv_part001 [','] (some [hdr20]) = .capacityAbort :=
  ⟨by decide, by decide⟩

/-- C2 (amended): the part_001 loadCsv signals the capacity abort iff the
header yields at least `MAX_ALLOWED_FEATURE_NAMES` (20) tokens — i.e.
strictly more than 19 — because the check `MAX_ALLOWED_FEATURE_NAMES - 1 ==
tokenCount` fires before the 20th token is stored; headers with at most 19
tokens never trigger it. -/
theorem C2_amended (delims : List Char) (hdr : List Char) (dls : List (List Char))
    (hbuf : ∀ l ∈ hdr :: dls, l.length ≤ 1022) :
    loadCsv_part001 delims (some (hdr :: dls)) = .capacityAbort ↔
      MAX_ALLOWED_FEATURE_NAMES ≤ (lineTokens [','] hdr).length :=
  loadCsv_part001_no_abort_iff delims hdr dls

/-- C2 witness: a 21-token header aborts the load, by the amended theorem. -/
theorem C2_witness : loadCsv_part001 [','] (some [hdr21]) = .capacityAbort :=
  (C2_amended [','] hdr21 [] (by decide)).mpr (by decide)

/-- C1 counterexample: the part_001 loadCsv successfully returns a table
with 1 row and 2 columns whose `size` field is 0, not `rows * cols = 2`:
that variant never assigns `df.size` after its `0l` initializer. -/
theorem C1_counterexample :
    loadCsv_part001 [','] (some fileAB) = .ok dfAB0 ∧
    dfAB0.size ≠ dfAB0.rows * dfAB0.cols :=
  ⟨by decide, by decide⟩

/-- C1 (amended): the main.c loadCsv (line 727) establishes
`size = rows * cols` on every table it returns; the part_001 variant
instead leaves `size` at its initializer value 0. -/
theorem C1_amended (delims : List Char) (file : Option (List (List Char)))
    (dfm dfp : csvData_t)
    (hbuf : ∀ l ∈ file.getD [], l.length ≤ 1022) :
    (loadCsv_main delims file = .ok dfm → dfm.size = dfm.rows * dfm.cols) ∧
    (loadCsv_part001 delims file = .ok dfp → dfp.size = 0) := by
  constructor
  · exact loadCsv_main_ok_size delims file dfm
  · intro h
    rcases file with _ | (_ | ⟨hdr, dls⟩)
    · exact LoadResult.noConfusion h
    · exact LoadResult.noConfusion h
    · exact (loadCsv_part001_ok_inv delims hdr dls dfp h).2.2.2.1

/-- C1 witness: on the file `a,b` / `1,2` the main.c variant returns
`size = 2 = 1 * 2` and the part_001 variant returns `size = 0`. -/
theorem C1_witness : dfAB2.size = dfAB2.rows * dfAB2.cols ∧ dfAB0.size = 0 :=
  ⟨(C1_amended [','] (some fileAB) dfAB2 dfAB0 (by decide)).1 (by decide),
   (C1_amended [','] (some fileAB) dfAB2 dfAB0 (by decide)).2 (by decide)⟩

/-- C8: the copy loop of `trimToken` writes exactly the alphanumeric
characters of its input, in order, into the result buffer — `" Age "` and
`"Age!"` both yield the characters of `"Age"` — but the buffer is left
without a written NUL terminator whenever at least one character was
copied (the only terminator the code writes is `trimmedToken[0] = '\0'`
before the loop), so the C string the caller reads back is not guaranteed
to be exactly that character sequence. -/
theorem C8_trim_behavior :
    (∀ s : List Char, trimToken s = s.filter isAlnumC ∧
      List.Sublist (trimToken s) s) ∧
    trimToken " Age ".toList = "Age".toList ∧
    trimToken "Age!".toList = "Age".toList ∧
    trimTokenTerminated " Age ".toList = false ∧
    trimTokenTerminated "Age!".toList = false :=
  ⟨fun s => ⟨trimToken_eq_filter s, by
    rw [trimToken_eq_filter]
    exact List.filter_sublist s⟩,
   by decide, by decide, by decide, by decide⟩

/-- C9: a data token on which `strtod` performs no conversion (such as
`N/A`) feeds the value 0.0 into its cell, and the load as a whole still
returns a table — the data pass has no abort path, so a malformed numeric
cell never aborts the load. -/
theorem C9_malformed_cell_zero (delims : List Char) (hdr : List Char)
    (dls : List (List Char)) (df : csvData_t) (r c : Nat)
    (hbuf : ∀ l ∈ hdr :: dls, l.length ≤ 1022)
    (hload : loadCsv_part001 delims (some (hdr :: dls)) = .ok df)
    (hr : r < dls.length)
    (hc : c < (lineTokens delims (dls.getD r [])).length)
    (hbad : strtodParse ((lineTokens delims (dls.getD r [])).getD c []) = none) :
    cellAt df r c = CVal.fin 0 1 := by
  have hinv := (loadCsv_part001_ok_inv delims hdr dls df hload).2.2.2.2.2 r c
  rw [hinv, if_pos ⟨hr, hc⟩]
  simp only [atofModel, hbad]

/-- C9 witness: loading `a,b` / `1,N/A` succeeds and the `N/A` cell is 0.0. -/
theorem C9_witness : cellAt dfNA 0 1 = CVal.fin 0 1 :=
  C9_malformed_cell_zero [','] "a,b".toList ["1,N/A".toList] dfNA 0 1
    (by decide) (by decide) (by decide) (by decide) (by decide)

/-- C10: any in-bounds cell (row < rows, col < cols) whose data line
supplied no token for its column — a short data row — still holds 0.0,
because the designated struct initializer zero-fills the fixed grid before
the data pass and the pass only writes cells it has tokens for. -/
theorem C10_zero_init (delims : List Char) (hdr : List Char)
    (dls : List (List Char)) (df : csvData_t) (r c : Nat)
    (hbuf : ∀ l ∈ hdr :: dls, l.length ≤ 1022)
    (hload : loadCsv_part001 delims (some (hdr :: dls)) = .ok df)
    (hrow : (r : Int) < df.rows) (hcol : (c : Int) < df.cols)
    (hshort : (lineTokens delims (dls.getD r [])).length ≤ c) :
    cellAt df r c = CVal.fin 0 1 := by
  have hinv := (loadCsv_part001_ok_inv delims hdr dls df hload).2.2.2.2.2 r c
  rw [hinv, if_neg]
  rintro ⟨-, h2⟩
  omega

/-- C10 witness: loading `a,b` / `1` succeeds and cell (0, 1) — inside the
1 × 2 table but never written — is 0.0. -/
theorem C10_witness : cellAt dfShort 0 1 = CVal.fin 0 1 :=
  C10_zero_init [','] "a,b".toList ["1".toList] dfShort 0 1
    (by decide) (by decide) (by decide) (by decide) (by decide)

/-- C3: the part_001 loadCsv data loop has no row-capacity check at all:
with 25001 data lines it performs an out-of-bounds write at grid row 25000
(the grid has rows 0 … 24999) instead of signalling CapacityExceeded.  And
the `getFrameSize` of the other main.c variant aborts already at exactly
25000 data lines — a count the claim says is within the limit — because
its check `MAX_ALLOWED_FEATURE_VALUE - 1 == dfRows` fires one row early. -/
theorem C3_row_capacity_violated :
    loadCsv_part001 [','] (some ("a".toList :: List.replicate 25001 "1".toList)) =
      .ub (.oobWrite MAX_ALLOWED_FEATURE_VALUE 0) ∧
    getFrameSize [','] ("a".toList :: List.replicate 25000 "1".toList) = none := by
  constructor
  · have hdp := dataPass_oob [','] (List.replicate 25001 "1".toList) 0 []
      (fun l hl => by rw [List.eq_of_mem_replicate hl]; exact ⟨by decide, by decide⟩)
      (Nat.zero_le _)
      (by simp only [List.length_replicate]; decide)
    simp only [loadCsv_part001]
    rw [if_neg (show ¬(MAX_ALLOWED_FEATURE_NAMES ≤
      (lineTokens [','] "a".toList).length) by decide)]
    rw [hdp]
  · have hcr := countRowsAux_none (List.replicate 25000 "1".toList) 0
      (Nat.zero_le _)
      (by simp only [List.length_replicate]; decide)
    simp only [getFrameSize, hcr]

/-- C5 counterexample: on a loaded table with R = 1 row, head with n = 2
prints 2 rows, not the claimed min(2, 1) = 1 (the second printed row is
read from the zero-initialized grid region beyond the loaded data). -/
theorem C5_counterexample :
    loadCsv_part001 [','] (some fileA1) = .ok dfA1 ∧
    (DF_get_head 2 dfA1).toOption.map List.length = some 2 ∧
    min 2 dfA1.rows.toNat = 1 :=
  ⟨by decide, by decide, by decide⟩

/-- C5 (amended): `DF_get_head` prints exactly `n` rows — grid rows
0 … n-1, in original order starting at row 0 — regardless of the table's
row count `R`; only when `n ≤ R` does this coincide with the claimed
`min(n, R)` rows (the first `n` loaded rows). -/
theorem C5_head_amended (delims : List Char) (hdr : List Char)
    (dls : List (List Char)) (df : csvData_t) (n : Nat)
    (hbuf : ∀ l ∈ hdr :: dls, l.length ≤ 1022)
    (hload : loadCsv_part001 delims (some (hdr :: dls)) = .ok df)
    (hn : n ≤ MAX_ALLOWED_FEATURE_VALUE) :
    DF_get_head n df = .ok ((List.range n).map (fun r => gridRow df r)) ∧
    (n ≤ df.rows.toNat →
      (List.range n).map (fun r => gridRow df r) = (loadedRows df).take n) := by
  obtain ⟨hlen, hrows, hcols, -, -, -⟩ := loadCsv_part001_ok_inv delims hdr dls df hload
  have hcolsN : df.cols.toNat ≤ MAX_ALLOWED_FEATURE_NAMES := by rw [hcols]; omega
  constructor
  · unfold DF_get_head
    apply exceptMapList_ok_of
    intro r hrm
    have hrlt : r < n := List.mem_range.mp hrm
    have hok := readRowCells_ok df (Int.ofNat r)
      (by simp only [Int.ofNat_eq_natCast]; omega)
      (by simp only [Int.ofNat_eq_natCast]; omega)
      hcolsN
    simpa only [Int.toNat_ofNat] using hok
  · intro hnR
    unfold loadedRows
    rw [← List.map_take, List.take_range, min_eq_left hnR]

/-- C5 witness: on the 1-row table from `a` / `1`, head with n = 1 prints
exactly row 0, which here is also min(1, R) = 1 row. -/
theorem C5_witness :
    DF_get_head 1 dfA1 = .ok ((List.range 1).map (fun r => gridRow dfA1 r)) ∧
    (List.range 1).map (fun r => gridRow dfA1 r) = (loadedRows dfA1).take 1 :=
  ⟨(C5_head_amended [','] "a".toList ["1".toList] dfA1 1 (by decide) (by decide)
      (by decide)).1,
   (C5_head_amended [','] "a".toList ["1".toList] dfA1 1 (by decide) (by decide)
      (by decide)).2 (by decide)⟩

/-- C6 counterexample: on a loaded table with rows `1` then `2`, tail with
n = 2 prints the last two rows as row 1 then row 0 — the reverse of the
claimed original order (first-loaded first). -/
theorem C6_counterexample :
    loadCsv_part001 [','] (some fileA12) = .ok dfA12 ∧
    DF_get_tail 2 dfA12 = .ok [[CVal.fin 2 1], [CVal.fin 1 1]] ∧
    [[CVal.fin 2 1], [CVal.fin 1 1]] ≠ ([[CVal.fin 1 1], [CVal.fin 2 1]] :
      List (List CVal)) :=
  ⟨by decide, by decide, by decide⟩

/-- C6 (amended): for `n ≤ R`, `DF_get_tail` prints the last `n` rows in
reverse order — the reversal of the original-order suffix the claim
describes; for `n > R` (and at least one column) the loop index underflows
below row 0 and the traversal fails with an out-of-bounds read instead of
printing `min(n, R)` rows. -/
theorem C6_tail_amended (delims : List Char) (hdr : List Char)
    (dls : List (List Char)) (df : csvData_t) (n : Nat)
    (hbuf : ∀ l ∈ hdr :: dls, l.length ≤ 1022)
    (hload : loadCsv_part001 delims (some (hdr :: dls)) = .ok df)
    (hR : dls.length ≤ MAX_ALLOWED_FEATURE_VALUE) :
    (n ≤ df.rows.toNat →
      DF_get_tail n df = .ok (((loadedRows df).drop (df.rows.toNat - n)).reverse)) ∧
    (df.rows.toNat < n → 0 < df.cols →
      ∃ e, DF_get_tail n df = .error e) := by
  obtain ⟨hlen, hrows, hcols, -, -, -⟩ := loadCsv_part001_ok_inv delims hdr dls df hload
  have hcolsN : df.cols.toNat ≤ MAX_ALLOWED_FEATURE_NAMES := by rw [hcols]; omega
  have hrowsN : df.rows.toNat = dls.length := by rw [hrows]; omega
  constructor
  · intro hnR
    unfold DF_get_tail loadedRows
    have hok : ∀ i ∈ List.range n,
        (fun i => readRowCells df (df.rows - 1 - Int.ofNat i)) i =
          .ok ((fun i => gridRow df (df.rows.toNat - 1 - i)) i) := by
      intro i him
      have hi : i < n := List.mem_range.mp him
      have h0 : 0 ≤ df.rows - 1 - Int.ofNat i := by
        rw [hrows]; simp only [Int.ofNat_eq_natCast]; omega
      have h1 : df.rows - 1 - Int.ofNat i < (MAX_ALLOWED_FEATURE_VALUE : Int) := by
        rw [hrows]; simp only [Int.ofNat_eq_natCast]; omega
      have hidx : (df.rows - 1 - Int.ofNat i).toNat = df.rows.toNat - 1 - i := by
        rw [hrows]; simp only [Int.ofNat_eq_natCast]; omega
      show readRowCells df (df.rows - 1 - Int.ofNat i) =
        .ok (gridRow df (df.rows.toNat - 1 - i))
      rw [readRowCells_ok df (df.rows - 1 - Int.ofNat i) h0 h1 hcolsN, hidx]
    rw [exceptMapList_ok_of _ _ _ hok,
      range_map_rev df.rows.toNat n hnR (fun r => gridRow df r)]
  · intro hlt hc0
    unfold DF_get_tail
    have hfx : ∀ b, (fun i => readRowCells df (df.rows - 1 - Int.ofNat i))
        df.rows.toNat ≠ .ok b := by
      intro b hb
      have hb2 : readRowCells df (df.rows - 1 - Int.ofNat df.rows.toNat) = .ok b := hb
      have hneg : df.rows - 1 - Int.ofNat df.rows.toNat < 0 := by
        rw [hrows]; simp only [Int.ofNat_eq_natCast]; omega
      obtain ⟨e, he⟩ := readRowCells_neg df _ hneg (by omega)
      rw [he] at hb2
      exact Except.noConfusion hb2
    exact exceptMapList_error_of _ _ df.rows.toNat (List.mem_range.mpr hlt) hfx

/-- C6 witness: on the 2-row table from `a` / `1` / `2`, tail with n = 2
prints the reversal of the last two loaded rows. -/
theorem C6_witness :
    DF_get_tail 2 dfA12 =
      .ok (((loadedRows dfA12).drop (dfA12.rows.toNat - 2)).reverse) :=
  (C6_tail_amended [','] "a".toList ["1".toList, "2".toList] dfA12 2 (by decide)
    (by decide) (by decide)).1 (by decide)

/-- C7 counterexample: on a successfully loaded table with R = 0 rows, the
index draw `rand() % df.rows` divides by zero — undefined behaviour — so
random sampling is not safe in the R = 0 case the claim includes. -/
theorem C7_counterexample :
    loadCsv_part001 [','] (some fileA) = .ok dfA ∧ dfA.rows = 0 ∧
    DF_get_randomSamples 1 (fun _ => 0) dfA = .error .modZero :=
  ⟨by decide, by decide, by decide⟩

/-- C7 (amended): for a loaded table with at least one row, every drawn
index `rand() % df.rows` lies in [0, rows) and all sampled reads stay in
bounds; the claim's R = 0 case instead reaches a modulo by zero. -/
theorem C7_sample_amended (delims : List Char) (hdr : List Char)
    (dls : List (List Char)) (df : csvData_t) (n : Nat) (seq : Nat → Nat)
    (hbuf : ∀ l ∈ hdr :: dls, l.length ≤ 1022)
    (hload : loadCsv_part001 delims (some (hdr :: dls)) = .ok df)
    (hR : dls.length ≤ MAX_ALLOWED_FEATURE_VALUE)
    (hpos : 0 < df.rows) :
    (∀ idx ∈ sampleIndices n seq df, 0 ≤ idx ∧ idx < df.rows) ∧
    DF_get_randomSamples n seq df =
      .ok ((sampleIndices n seq df).map (fun idx => gridRow df idx.toNat)) := by
  obtain ⟨hlen, hrows, hcols, -, -, -⟩ := loadCsv_part001_ok_inv delims hdr dls df hload
  have hcolsN : df.cols.toNat ≤ MAX_ALLOWED_FEATURE_NAMES := by rw [hcols]; omega
  have hbound : ∀ idx ∈ sampleIndices n seq df, 0 ≤ idx ∧ idx < df.rows := by
    intro idx hidx
    simp only [sampleIndices, List.mem_map, List.mem_range] at hidx
    obtain ⟨i, -, rfl⟩ := hidx
    constructor
    · exact Int.tmod_nonneg _
        (by simp only [Int.ofNat_eq_natCast]; exact Int.natCast_nonneg _)
    · exact Int.tmod_lt_of_pos _ hpos
  refine ⟨hbound, ?_⟩
  unfold DF_get_randomSamples
  have hne : ¬df.rows = 0 := by omega
  rw [if_neg hne]
  apply exceptMapList_ok_of
  intro idx hidx
  obtain ⟨hge, hlt2⟩ := hbound idx hidx
  exact readRowCells_ok df idx hge (by rw [hrows] at hlt2; omega) hcolsN

/-- C7 witness: on the 1-row table from `a` / `1`, drawing one sample with
a rand value of 0 stays in bounds and succeeds. -/
theorem C7_witness :
    DF_get_randomSamples 1 (fun _ => 0) dfA1 =
      .ok ((sampleIndices 1 (fun _ => 0) dfA1).map (fun idx => gridRow dfA1 idx.toNat)) :=
  (C7_sample_amended [','] "a".toList ["1".toList] dfA1 1 (fun _ => 0) (by decide)
    (by decide) (by decide) (by decide)).2

end OpenCsv

